import Mathlib

/-!
Shallow embedding of `src/iib/workers/tasks/build.py` (the IIB build
orchestration module) and proofs about it.

External I/O (image inspection via skopeo, the request-store API, podman,
the job queue, time.sleep) is modelled by passing its observable results in
as explicit inputs (resolved architecture sets, request-record snapshots)
and by returning the sequence of side effects a function performs as an
explicit list, in program order.  Machine-level details (process spawning,
temp directories, file handles) are abstracted away; the data each function
computes (architecture sets, error messages, manifest YAML text, sanitized
command lines) is embedded faithfully from the source.
-/

namespace IIB

/-- The worker configuration surface read through `get_worker_config()`.
The two pull-spec templates are Python format strings
(`conf['iib_image_push_template'].format(registry=..., request_id=...)` and
`conf['iib_arch_image_push_template'].format(registry=..., request_id=...,
arch=...)`); they are embedded as functions of the substituted fields. -/
structure WorkerConfig where
  iib_registry : String
  iib_registry_credentials : String
  iib_arches : Finset String
  iib_arch : String
  iib_image_push_template : String → Nat → String
  iib_arch_image_push_template : String → Nat → String → String
  iib_poll_api_frequency : Nat

/-- Split a character list at the first `':'`, returning the parts before
and after it, or `none` when there is no colon. -/
def splitFirstColon : List Char → Option (List Char × List Char)
  | [] => none
  | c :: cs =>
    if c = ':' then some ([], cs)
    else
      match splitFirstColon cs with
      | none => none
      | some (u, p) => some (c :: u, p)

/-- Embedding of `_, password = conf['iib_registry_credentials'].split(':', 1)`: the part
of the credentials string after the first colon.  (With no colon Python's
unpacking raises `ValueError`; credentials are configured as `user:pass`,
and this embedding returns `""` in that unreachable case.) -/
def passwordPart (creds : String) : String :=
  match splitFirstColon creds.data with
  | none => ""
  | some (_, p) => String.mk p

/-- Python's `sorted(...)` on a set of strings: the sorted, duplicate-free
list of its elements. -/
def sortSet (s : Finset String) : List String :=
  s.sort (. ≤ .)

/-- The target architecture set computed at the start of
`_prepare_request_for_build` (build.py lines 263-274): `set(add_arches)`
when `add_arches` is truthy, else the empty set, unioned with the
architectures of `from_index` when that argument is truthy. -/
def targetArches (add_arches : Option (List String))
    (from_index_arches : Option (Finset String)) : Finset String :=
  let arches : Finset String :=
    match add_arches with
    | none => ∅
    | some l => if l.isEmpty then ∅ else l.toFinset
  match from_index_arches with
  | none => arches
  | some fia => arches ∪ fia

/-- The distinct raise sites of `_prepare_request_for_build`.  The source
raises a single `IIBError` class; the constructor records which raise site
fired and the field carries the exact message text. -/
inductive PrepareError where
  | noArches (msg : String)
  | unsupportedBinaryArch (msg : String)
  | unsupportedGlobalArch (msg : String)
deriving DecidableEq, Repr

/-- Embedding of `_prepare_request_for_build` (build.py lines 239-313), with the skopeo
inspections abstracted: `binary_image_arches` is the architecture set of the
resolved binary image and `from_index_arches` that of the resolved
`from_index` (or `none` when `from_index` is falsy).  Returns the computed
`arches` set on success. -/
def prepare_request_for_build (conf : WorkerConfig)
    (binary_image_arches : Finset String)
    (from_index_arches : Option (Finset String))
    (add_arches : Option (List String)) :
    Except PrepareError (Finset String) :=
  let arches := targetArches add_arches from_index_arches
  if arches = ∅ then
    .error (.noArches "No arches were provided to build the index image")
  else if ¬ arches ⊆ binary_image_arches then
    .error (.unsupportedBinaryArch
      ("The binary image is not available for the following arches: "
        ++ String.intercalate ", " (sortSet (arches \ binary_image_arches))))
  else if ¬ arches ⊆ conf.iib_arches then
    .error (.unsupportedGlobalArch
      ("Building for the following requested arches is not supported: "
        ++ String.intercalate "," (sortSet (arches \ conf.iib_arches))))
  else
    .ok arches

/-- A `platform` object inside a manifest-list entry. -/
structure ManifestPlatform where
  architecture : String
deriving DecidableEq, Repr

/-- One entry of the `manifests` array of a raw v2 manifest list. -/
structure RawManifestEntry where
  platform : ManifestPlatform
deriving DecidableEq, Repr

/-- The JSON returned by `skopeo inspect --raw`: its `mediaType` and the
`manifests` array (the fields `_get_image_arches` reads). -/
structure SkopeoRawManifest where
  mediaType : String
  manifests : List RawManifestEntry
deriving DecidableEq, Repr

def manifestListMediaType : String :=
  "application/vnd.docker.distribution.manifest.list.v2+json"

/-- Embedding of `_get_image_arches` (build.py lines 203-221), with the skopeo call
abstracted: `raw` is the parsed JSON of `skopeo inspect --raw` for
`pull_spec`.  Builds the architecture set by iterating over the `manifests`
entries and adding each `platform.architecture`. -/
def get_image_arches (pull_spec : String) (raw : SkopeoRawManifest) :
    Except String (Finset String) :=
  if raw.mediaType ≠ manifestListMediaType then
    .error ("The pull specification of " ++ pull_spec
      ++ " is not a v2 manifest list")
  else
    .ok (raw.manifests.foldl (fun s m => insert m.platform.architecture s) ∅)

/-- Embedding of `_get_local_pull_spec` (build.py lines 193-200):
`f'operator-registry-index:{request_id}'`. -/
def get_local_pull_spec (request_id : Nat) : String :=
  "operator-registry-index:" ++ toString request_id

/-- Embedding of `_get_external_arch_pull_spec` (build.py lines 172-190).  Python's
`arch or conf['iib_arch']` falls back to the configured arch when `arch` is
`None` or the empty string. -/
def get_external_arch_pull_spec (conf : WorkerConfig) (request_id : Nat)
    (arch : Option String := none) (include_transport : Bool := false) :
    String :=
  let archValue :=
    match arch with
    | some a => if a = "" then conf.iib_arch else a
    | none => conf.iib_arch
  let pull_spec :=
    conf.iib_arch_image_push_template conf.iib_registry request_id archValue
  if include_transport then "docker://" ++ pull_spec else pull_spec

/-- The output pull spec of `_create_and_push_manifest_list` (build.py
lines 70-72): `conf['iib_image_push_template'].format(registry=...,
request_id=...)`. -/
def outputPullSpec (conf : WorkerConfig) (request_id : Nat) : String :=
  conf.iib_image_push_template conf.iib_registry request_id

/-- The dedented header written to `manifest.yaml` before the loop
(build.py lines 77-84). -/
def manifestHeader (output_pull_spec : String) : String :=
  "image: " ++ output_pull_spec ++ "\nmanifests:\n"

/-- The dedented block written to `manifest.yaml` for one architecture
(build.py lines 92-101). -/
def manifestEntryBlock (arch_pull_spec arch : String) : String :=
  "- image: " ++ arch_pull_spec ++ "\n  platform:\n    architecture: "
    ++ arch ++ "\n    os: linux\n"

/-- The full text of `manifest.yaml` assembled by
`_create_and_push_manifest_list` (build.py lines 74-107): the header, then
one entry block per architecture, appended in the order of
`for arch in sorted(arches)`. -/
def manifestListContent (conf : WorkerConfig) (request_id : Nat)
    (arches : Finset String) : String :=
  (sortSet arches).foldl
    (fun acc arch =>
      acc ++ manifestEntryBlock
        (get_external_arch_pull_spec conf request_id (some arch) false) arch)
    (manifestHeader (outputPullSpec conf request_id))

/-- Embedding of `_create_and_push_manifest_list` (build.py lines 59-124), with the
`manifest-tool` invocation abstracted: returns the `manifest.yaml` content
it writes and the output pull spec it returns. -/
def create_and_push_manifest_list (conf : WorkerConfig) (request_id : Nat)
    (arches : Finset String) : String × String :=
  (manifestListContent conf request_id arches, outputPullSpec conf request_id)

/-- The sanitized command computed on failure in `_run_cmd` (build.py lines
521-524): each argument equal to the full credentials string or to its
password part is replaced by `'********'`; every other argument is kept. -/
def sanitized_cmd (conf : WorkerConfig) (cmd : List String) : List String :=
  let password := passwordPart conf.iib_registry_credentials
  cmd.map (fun arg =>
    if arg = conf.iib_registry_credentials ∨ arg = password then "********"
    else arg)

/-- The error text logged by `_run_cmd` on nonzero exit (build.py line 525):
`log.error('The command "%s" failed with: %s', ' '.join(sanitized_cmd),
response.stderr)`, rendered with its arguments substituted. -/
def loggedErrorText (conf : WorkerConfig) (cmd : List String)
    (stderr : String) : String :=
  "The command \"" ++ String.intercalate " " (sanitized_cmd conf cmd)
    ++ "\" failed with: " ++ stderr

/-- One observation of the request record returned by `get_request`: the
fields `_poll_request` and `opm_index_add` read (`state` and the done-arch
set `request['arches']`). -/
structure RequestSnapshot where
  state : String
  arches : Finset String
deriving DecidableEq

/-- Embedding of `_poll_request` (build.py lines 316-352).  Each loop iteration sleeps
for the poll interval and then reads the request; the embedding consumes
one `RequestSnapshot` per iteration.  `some b` is the Python return value;
`none` means the trace of observations ran out with the loop still running
(the loop has no timeout, so it never returns on its own). -/
def poll_request (trace : List RequestSnapshot)
    (arches_remaining : Finset String) : Option Bool :=
  match trace with
  | [] => none
  | request :: rest =>
    if request.state ≠ "in_progress" then
      some false
    else
      let arches_remaining := arches_remaining \ request.arches
      if arches_remaining = ∅ then some true
      else poll_request rest arches_remaining

/-- The value of `arches_remaining` after the
`arches_remaining = arches_remaining - set(request['arches'])` subtraction
has been applied for each observation in `trace`, in order. -/
def remainingAfter (arches_remaining : Finset String)
    (trace : List RequestSnapshot) : Finset String :=
  trace.foldl (fun remaining request => remaining \ request.arches)
    arches_remaining

/-- The `opm index add` command built in `opm_index_add` (build.py lines
465-481): the `--from-index` pair is appended only when `from_index` is
truthy. -/
def opmGenerateCmd (bundles : List String) (binary_image : String)
    (from_index : Option String) : List String :=
  ["opm", "index", "add", "--generate", "--bundles",
    String.intercalate "," bundles, "--binary-image", binary_image]
  ++ (match from_index with
      | some fi => ["--from-index", fi]
      | none => [])

/-- The observable side effects of one `opm_index_add` worker run, in
program order. -/
inductive WorkerEffect where
  | setState (state reason : String)
  | cleanup
  | runOpmGenerate (cmd : List String)
  | fixOpmPath
  | buildImage (destination : String)
  | pushArchImage (destination : String)
  | reportArchDone (arch : String)
deriving DecidableEq, Repr

/-- Embedding of `opm_index_add` (build.py lines 438-495) as the list of side effects it
performs, in program order.  `observed_state` is the `state` of the request
returned by the initial `get_request` call.  When the guard fires the only
effect is the `set_request_state` call; otherwise the worker runs
`_cleanup`, the `opm` generate command, `_fix_opm_path`, `_build_image`,
`_push_arch_image`, and finally reports its arch via `update_request`. -/
def opm_index_add (conf : WorkerConfig) (bundles : List String)
    (binary_image : String) (request_id : Nat) (from_index : Option String)
    (observed_state : String) : List WorkerEffect :=
  if observed_state = "failed" then
    [.setState "failed"
      ("Not building for the arch " ++ conf.iib_arch
        ++ " since the request has already failed")]
  else
    [.cleanup,
     .runOpmGenerate (opmGenerateCmd bundles binary_image from_index),
     .fixOpmPath,
     .buildImage (get_local_pull_spec request_id),
     .pushArchImage (get_external_arch_pull_spec conf request_id none true),
     .reportArchDone conf.iib_arch]

/-- The observable side effects of `handle_add_request`, in program order. -/
inductive OrchEffect where
  | setState (state reason : String)
  | updateResolvedImages
  | dispatchBuild (arch queue : String)
  | pushManifestList (pull_spec : String)
  | recordIndexImage (pull_spec : String)
deriving DecidableEq, Repr

/-- Whether an orchestrator effect is a manifest-list build-and-push. -/
def OrchEffect.isPushManifestList : OrchEffect → Bool
  | .pushManifestList _ => true
  | _ => false

/-- Embedding of `handle_add_request` (build.py lines 395-435) as the list of side
effects it performs, in program order, with the same I/O abstraction as
`prepare_request_for_build` and `poll_request`.  On a preparation error the
exception propagates after the initial `set_request_state`; otherwise one
`opm_index_add` task is dispatched per arch in sorted order on the
`iib_<arch>` queue, then the request is polled; only when polling returns
`True` does `_finish_request_post_build` run (set state, build and push the
manifest list, record `index_image` and state `complete`). -/
def handle_add_request (conf : WorkerConfig) (request_id : Nat)
    (binary_image_arches : Finset String)
    (from_index_arches : Option (Finset String))
    (add_arches : Option (List String))
    (trace : List RequestSnapshot) : List OrchEffect :=
  [.setState "in_progress" "Resolving the images"] ++
  match prepare_request_for_build conf binary_image_arches
      from_index_arches add_arches with
  | .error _ => []
  | .ok arches =>
    [.updateResolvedImages] ++
    (sortSet arches).map
      (fun arch => .dispatchBuild arch ("iib_" ++ arch)) ++
    match poll_request trace arches with
    | some true =>
      [.setState "in_progress" "Creating the manifest list",
       .pushManifestList (outputPullSpec conf request_id),
       .recordIndexImage (outputPullSpec conf request_id)]
    | _ => []

/-- A concrete worker configuration used to instantiate the theorems below
on closed inputs. -/
def exampleConf : WorkerConfig where
  iib_registry := "registry.example.com"
  iib_registry_credentials := "iib:hunter2"
  iib_arches := {"amd64", "ppc64le", "s390x"}
  iib_arch := "amd64"
  iib_image_push_template := fun registry request_id =>
    registry ++ "/iib-build:" ++ toString request_id
  iib_arch_image_push_template := fun registry request_id arch =>
    registry ++ "/iib-build:" ++ toString request_id ++ "-" ++ arch
  iib_poll_api_frequency := 5

/-! ## Helper lemmas -/

/-- Folding `insert` of each entry's architecture over the `manifests` array
builds the union of the initial set with the set of listed architectures. -/
lemma foldl_insert_arches (l : List RawManifestEntry) (init : Finset String) :
    l.foldl (fun s m => insert m.platform.architecture s) init
      = init ∪ (l.map (fun m => m.platform.architecture)).toFinset := by
  induction l generalizing init with
  | nil => simp
  | cons m l ih =>
    simp only [List.foldl_cons, List.map_cons, List.toFinset_cons, ih,
      Finset.union_insert, Finset.insert_union]

/-- Unfolding of `String.join` over a cons. -/
lemma string_join_cons (x : String) (xs : List String) :
    String.join (x :: xs) = x ++ String.join xs := by
  apply String.ext
  simp [String.join_eq]

/-- Appending one rendered block per element in a left fold is the initial
string followed by the concatenation of all the blocks. -/
lemma foldl_append_eq_join {α : Type} (g : α → String) (l : List α)
    (init : String) :
    l.foldl (fun acc a => acc ++ g a) init = init ++ String.join (l.map g) := by
  induction l generalizing init with
  | nil => simp [String.join, String.append_empty]
  | cons a l ih =>
    simp only [List.foldl_cons, List.map_cons, ih, string_join_cons,
      String.append_assoc]

/-! ## Claim theorems -/

/-- Claim C6: whenever the raw-manifest inspection returns a media type other
than a v2 manifest list, `_get_image_arches` fails (with the
not-a-v2-manifest-list error naming the pull spec); when the media type is
a v2 manifest list it returns exactly the set of architectures appearing in
the list's `platform` entries. -/
theorem get_image_arches_media_type (pull_spec : String)
    (raw : SkopeoRawManifest) :
    (raw.mediaType ≠ manifestListMediaType →
      get_image_arches pull_spec raw
        = .error ("The pull specification of " ++ pull_spec
            ++ " is not a v2 manifest list")) ∧
    (raw.mediaType = manifestListMediaType →
      get_image_arches pull_spec raw
        = .ok ((raw.manifests.map
            (fun m => m.platform.architecture)).toFinset)) := by
  constructor
  · intro h
    simp [get_image_arches, h]
  · intro h
    simp [get_image_arches, h, foldl_insert_arches]

/-- Claim C7: the target architecture set is the union of `add_arches` (taken as
a set, empty when absent) with the architectures of `from_index` when
present, and `_prepare_request_for_build` raises the no-arches error
exactly when this set is empty. -/
theorem prepare_target_arches (conf : WorkerConfig)
    (binary_image_arches : Finset String)
    (from_index_arches : Option (Finset String))
    (add_arches : Option (List String)) :
    (targetArches add_arches from_index_arches
        = (add_arches.getD []).toFinset ∪ from_index_arches.getD ∅) ∧
    ((∃ m, prepare_request_for_build conf binary_image_arches
          from_index_arches add_arches = .error (.noArches m))
        ↔ targetArches add_arches from_index_arches = ∅) ∧
    (targetArches add_arches from_index_arches = ∅ →
      prepare_request_for_build conf binary_image_arches
          from_index_arches add_arches
        = .error (.noArches
            "No arches were provided to build the index image")) := by
  refine ⟨?_, ?_, ?_⟩
  · cases add_arches with
    | none => cases from_index_arches <;> simp [targetArches]
    | some l =>
      cases from_index_arches <;> cases l <;> simp [targetArches]
  · by_cases hA : targetArches add_arches from_index_arches = ∅
    · simp [prepare_request_for_build, hA]
    · simp only [prepare_request_for_build, hA, if_false]
      split_ifs <;> simp [hA]
  · intro hA
    simp [prepare_request_for_build, hA]

/-- Claim C2: with a non-empty target set `A`, `_prepare_request_for_build`
succeeds iff `A` is a subset of the binary image's architectures and of the
globally configured architectures; when a subset check fails, the error
message lists exactly the unsupported arches (`A \ B`, resp. `A \ global`),
sorted. -/
theorem prepare_arch_support (conf : WorkerConfig)
    (binary_image_arches : Finset String)
    (from_index_arches : Option (Finset String))
    (add_arches : Option (List String))
    (hA : targetArches add_arches from_index_arches ≠ ∅) :
    (prepare_request_for_build conf binary_image_arches from_index_arches
          add_arches
        = .ok (targetArches add_arches from_index_arches)
      ↔ targetArches add_arches from_index_arches ⊆ binary_image_arches
        ∧ targetArches add_arches from_index_arches ⊆ conf.iib_arches) ∧
    (¬ targetArches add_arches from_index_arches ⊆ binary_image_arches →
      prepare_request_for_build conf binary_image_arches from_index_arches
          add_arches
        = .error (.unsupportedBinaryArch
            ("The binary image is not available for the following arches: "
              ++ String.intercalate ", "
                (sortSet (targetArches add_arches from_index_arches
                  \ binary_image_arches))))) ∧
    (targetArches add_arches from_index_arches ⊆ binary_image_arches →
      ¬ targetArches add_arches from_index_arches ⊆ conf.iib_arches →
      prepare_request_for_build conf binary_image_arches from_index_arches
          add_arches
        = .error (.unsupportedGlobalArch
            ("Building for the following requested arches is not supported: "
              ++ String.intercalate ","
                (sortSet (targetArches add_arches from_index_arches
                  \ conf.iib_arches))))) := by
  by_cases h1 : targetArches add_arches from_index_arches
      ⊆ binary_image_arches <;>
    by_cases h2 : targetArches add_arches from_index_arches
        ⊆ conf.iib_arches <;>
    simp [prepare_request_for_build, hA, h1, h2]

/-- Claim C10: when the target set is unsupported by both the binary image and
the global configuration, `_prepare_request_for_build` raises the
binary-image unsupported-arch error (the binary-image check comes first). -/
theorem prepare_binary_check_first (conf : WorkerConfig)
    (binary_image_arches : Finset String)
    (from_index_arches : Option (Finset String))
    (add_arches : Option (List String))
    (h1 : ¬ targetArches add_arches from_index_arches ⊆ binary_image_arches)
    (_h2 : ¬ targetArches add_arches from_index_arches ⊆ conf.iib_arches) :
    prepare_request_for_build conf binary_image_arches from_index_arches
        add_arches
      = .error (.unsupportedBinaryArch
          ("The binary image is not available for the following arches: "
            ++ String.intercalate ", "
              (sortSet (targetArches add_arches from_index_arches
                \ binary_image_arches)))) := by
  have hA : targetArches add_arches from_index_arches ≠ ∅ := by
    intro h
    exact h1 (h ▸ Finset.empty_subset binary_image_arches)
  simp [prepare_request_for_build, hA, h1]

/-- Claim C4: a worker that observes the request in state `failed` at its initial
check sets the state to `failed` with a reason naming its own architecture
and performs no other side effect (no cleanup, build, push, or progress
report). -/
theorem opm_index_add_failed_guard (conf : WorkerConfig)
    (bundles : List String) (binary_image : String) (request_id : Nat)
    (from_index : Option String) (observed_state : String)
    (h : observed_state = "failed") :
    opm_index_add conf bundles binary_image request_id from_index
        observed_state
      = [.setState "failed"
          ("Not building for the arch " ++ conf.iib_arch
            ++ " since the request has already failed")] ∧
    (∃ pre post,
      "Not building for the arch " ++ conf.iib_arch
          ++ " since the request has already failed"
        = pre ++ conf.iib_arch ++ post) ∧
    (∀ e ∈ opm_index_add conf bundles binary_image request_id from_index
        observed_state, ∃ s r, e = WorkerEffect.setState s r) := by
  subst h
  have h0 : opm_index_add conf bundles binary_image request_id from_index
      "failed"
      = [.setState "failed"
          ("Not building for the arch " ++ conf.iib_arch
            ++ " since the request has already failed")] := rfl
  refine ⟨h0,
    ⟨"Not building for the arch ",
      " since the request has already failed", rfl⟩, ?_⟩
  intro e he
  rw [h0, List.mem_singleton] at he
  exact ⟨_, _, he⟩

/-- Claim C9: the duplicate/failure guard of `opm_index_add` fires only on the
exact state `failed`: for every other observed state (including
`complete`), the worker performs the full clean, generate, patch, build,
push, and report sequence. -/
theorem opm_index_add_full_sequence (conf : WorkerConfig)
    (bundles : List String) (binary_image : String) (request_id : Nat)
    (from_index : Option String) (observed_state : String)
    (h : observed_state ≠ "failed") :
    opm_index_add conf bundles binary_image request_id from_index
        observed_state
      = [.cleanup,
         .runOpmGenerate (opmGenerateCmd bundles binary_image from_index),
         .fixOpmPath,
         .buildImage (get_local_pull_spec request_id),
         .pushArchImage
           (get_external_arch_pull_spec conf request_id none true),
         .reportArchDone conf.iib_arch] := by
  simp [opm_index_add, h]

/-- Claim C8: the manifest descriptor built by `_create_and_push_manifest_list`
is the header naming the templated output pull spec for the request id,
followed by the concatenation of one
`{image, platform: {architecture, os: linux}}` block per architecture
(each pointing at that architecture's external pull spec), in sorted
architecture order with no duplicates; the whole construction is a pure
function of the inputs. -/
theorem manifest_list_structure (conf : WorkerConfig) (request_id : Nat)
    (arches : Finset String) :
    (manifestListContent conf request_id arches
      = manifestHeader (outputPullSpec conf request_id)
        ++ String.join ((sortSet arches).map (fun arch =>
            manifestEntryBlock
              (get_external_arch_pull_spec conf request_id (some arch) false)
              arch))) ∧
    List.Sorted (· ≤ ·) (sortSet arches) ∧
    (sortSet arches).Nodup ∧
    (∀ a, a ∈ sortSet arches ↔ a ∈ arches) ∧
    create_and_push_manifest_list conf request_id arches
      = (manifestListContent conf request_id arches,
         outputPullSpec conf request_id) := by
  refine ⟨?_, ?_, ?_, ?_, rfl⟩
  · exact foldl_append_eq_join _ _ _
  · exact Finset.sort_sorted (· ≤ ·) arches
  · exact Finset.sort_nodup (· ≤ ·) arches
  · intro a
    exact Finset.mem_sort (· ≤ ·)

/-- Claim C3: each iteration of `_poll_request` waits for the poll interval and
then reads the request (the embedding consumes one observation per
iteration); it returns `False` whenever the observed state is not
`in_progress`, otherwise subtracts the record's done-architecture set from
the remaining set and returns `True` exactly when the remaining set becomes
empty; with no deciding observation the loop keeps running — no timeout
bounds it.  Globally: it returns `True` iff some nonempty prefix of the
observations has every state `in_progress` and exhausts the remaining set,
and whenever it returns `False` the deciding observation's state is not
`in_progress` (all earlier ones were). -/
theorem poll_request_behaviour (trace : List RequestSnapshot)
    (arches_remaining : Finset String) :
    (poll_request [] arches_remaining = none) ∧
    (∀ request rest, request.state ≠ "in_progress" →
      poll_request (request :: rest) arches_remaining = some false) ∧
    (∀ request rest, request.state = "in_progress" →
      arches_remaining \ request.arches = ∅ →
      poll_request (request :: rest) arches_remaining = some true) ∧
    (∀ request rest, request.state = "in_progress" →
      arches_remaining \ request.arches ≠ ∅ →
      poll_request (request :: rest) arches_remaining
        = poll_request rest (arches_remaining \ request.arches)) ∧
    (poll_request trace arches_remaining = some true
      ↔ ∃ p q, trace = p ++ q ∧ p ≠ []
          ∧ (∀ s ∈ p, s.state = "in_progress")
          ∧ remainingAfter arches_remaining p = ∅) ∧
    (poll_request trace arches_remaining = some false →
      ∃ p s q, trace = p ++ s :: q
        ∧ (∀ t ∈ p, t.state = "in_progress")
        ∧ s.state ≠ "in_progress") := by
  refine ⟨rfl, ?_, ?_, ?_, ?_, ?_⟩
  · intro request rest h
    simp [poll_request, h]
  · intro request rest h he
    simp [poll_request, h, he]
  · intro request rest h he
    simp [poll_request, h, he]
  · induction trace generalizing arches_remaining with
    | nil =>
      simp [poll_request]
    | cons a rest ih =>
      by_cases ha : a.state = "in_progress"
      · by_cases he : arches_remaining \ a.arches = ∅
        · simp only [poll_request, ha, ne_eq, not_true_eq_false, if_false,
            he, if_true]
          constructor
          · intro _
            exact ⟨[a], rest, rfl, by simp, by simp [ha],
              by simpa [remainingAfter] using he⟩
          · intro _
            trivial
        · simp only [poll_request, ha, ne_eq, not_true_eq_false, if_false,
            he, if_neg, ih]
          constructor
          · rintro ⟨p, q, hsplit, hne, hip, hrem⟩
            refine ⟨a :: p, q, by rw [hsplit, List.cons_append], by simp,
              ?_, ?_⟩
            · intro s hs
              rcases List.mem_cons.mp hs with h | h
              · rw [h]; exact ha
              · exact hip s h
            · simpa [remainingAfter] using hrem
          · rintro ⟨p, q, hsplit, hne, hip, hrem⟩
            cases p with
            | nil => exact absurd rfl hne
            | cons b p =>
              have hab : a = b ∧ rest = p ++ q := by
                constructor
                · exact (List.cons.injEq a rest b (p ++ q) ▸ hsplit).1
                · exact (List.cons.injEq a rest b (p ++ q) ▸ hsplit).2
              rcases hab with ⟨hab1, hab2⟩
              subst hab1
              cases p with
              | nil =>
                exfalso
                apply he
                simpa [remainingAfter] using hrem
              | cons c p =>
                refine ⟨c :: p, q, hab2, by simp, ?_, ?_⟩
                · intro s hs
                  exact hip s (List.mem_cons_of_mem a hs)
                · simpa [remainingAfter] using hrem
      · simp only [poll_request, ha, ne_eq, not_false_eq_true, if_true]
        constructor
        · intro h
          exact absurd h (by simp)
        · rintro ⟨p, q, hsplit, hne, hip, _⟩
          cases p with
          | nil => exact absurd rfl hne
          | cons b p =>
            exfalso
            apply ha
            have hab : a = b := (List.cons.injEq a rest b (p ++ q)
              ▸ hsplit).1
            rw [hab]
            exact hip b (List.mem_cons_self b p)
  · induction trace generalizing arches_remaining with
    | nil =>
      intro h
      exact absurd h (by simp [poll_request])
    | cons a rest ih =>
      intro h
      by_cases ha : a.state = "in_progress"
      · by_cases he : arches_remaining \ a.arches = ∅
        · simp [poll_request, ha, he] at h
        · simp only [poll_request, ha, ne_eq, not_true_eq_false, if_false,
            he, if_neg] at h
          rcases ih _ h with ⟨p, s, q, hsplit, hip, hs⟩
          refine ⟨a :: p, s, q, by rw [hsplit, List.cons_append], ?_, hs⟩
          intro t ht
          rcases List.mem_cons.mp ht with h' | h'
          · rw [h']; exact ha
          · exact hip t h'
      · exact ⟨[], a, rest, rfl, by simp, ha⟩

/-- When the observed done-sets are append-only (never shrink from one
observation to the next), a `True` return from `_poll_request` exhibits an
observation whose state is `in_progress` and whose done-set covers the full
remaining set. -/
lemma poll_true_covered : ∀ (trace : List RequestSnapshot)
    (rem : Finset String),
    trace.Pairwise (fun s t => s.arches ⊆ t.arches) →
    poll_request trace rem = some true →
    ∃ snap ∈ trace, snap.state = "in_progress" ∧ rem ⊆ snap.arches := by
  intro trace
  induction trace with
  | nil =>
    intro rem _ h
    exact absurd h (by simp [poll_request])
  | cons a rest ih =>
    intro rem hmono h
    rcases List.pairwise_cons.mp hmono with ⟨hhead, htail⟩
    by_cases ha : a.state = "in_progress"
    · by_cases he : rem \ a.arches = ∅
      · exact ⟨a, List.mem_cons_self a rest, ha,
          Finset.sdiff_eq_empty_iff_subset.mp he⟩
      · have h' : poll_request rest (rem \ a.arches) = some true := by
          simpa [poll_request, ha, he] using h
        rcases ih _ htail h' with ⟨snap, hmem, hstate, hsub⟩
        refine ⟨snap, List.mem_cons_of_mem a hmem, hstate, ?_⟩
        intro x hx
        by_cases hxa : x ∈ a.arches
        · exact hhead snap hmem hxa
        · exact hsub (Finset.mem_sdiff.mpr ⟨hx, hxa⟩)
    · simp [poll_request, ha] at h

/-- No dispatched-build effect is a manifest-list push. -/
lemma countP_dispatch_zero (arches : Finset String) :
    ((sortSet arches).map
        (fun arch => OrchEffect.dispatchBuild arch ("iib_" ++ arch))).countP
      (fun e => e.isPushManifestList) = 0 := by
  rw [List.countP_eq_zero]
  intro e he
  rcases List.mem_map.mp he with ⟨a, _, rfl⟩
  simp [OrchEffect.isPushManifestList]

/-- A manifest-list push effect never occurs among the dispatched builds. -/
lemma push_not_mem_dispatch (arches : Finset String) (spec : String) :
    OrchEffect.pushManifestList spec ∉ (sortSet arches).map
      (fun arch => OrchEffect.dispatchBuild arch ("iib_" ++ arch)) := by
  intro h
  rcases List.mem_map.mp h with ⟨a, _, h⟩
  exact absurd h (by simp)

/-- Claim C1: with an append-only done-set along the observations, the
orchestrator performs at most one manifest-list push; a push happens only
when preparation succeeded and some observed request record has state
`in_progress` with its done-set covering the whole target set; and when
polling observed a state other than `in_progress` (returned `False`), no
manifest list is pushed. -/
theorem handle_add_request_manifest_once (conf : WorkerConfig)
    (request_id : Nat) (binary_image_arches : Finset String)
    (from_index_arches : Option (Finset String))
    (add_arches : Option (List String)) (trace : List RequestSnapshot)
    (hmono : trace.Pairwise (fun s t => s.arches ⊆ t.arches)) :
    ((handle_add_request conf request_id binary_image_arches
        from_index_arches add_arches trace).countP
      (fun e => e.isPushManifestList) ≤ 1) ∧
    (∀ spec, OrchEffect.pushManifestList spec ∈ handle_add_request conf
        request_id binary_image_arches from_index_arches add_arches trace →
      ∃ arches, prepare_request_for_build conf binary_image_arches
          from_index_arches add_arches = .ok arches ∧
        ∃ snap ∈ trace, snap.state = "in_progress" ∧ arches ⊆ snap.arches) ∧
    (∀ arches, prepare_request_for_build conf binary_image_arches
        from_index_arches add_arches = .ok arches →
      poll_request trace arches = some false →
      ∀ spec, OrchEffect.pushManifestList spec ∉ handle_add_request conf
        request_id binary_image_arches from_index_arches add_arches
        trace) := by
  cases hprep : prepare_request_for_build conf binary_image_arches
      from_index_arches add_arches with
  | error e =>
    refine ⟨?_, ?_, ?_⟩
    · simp [handle_add_request, hprep, List.countP_cons,
        OrchEffect.isPushManifestList]
    · intro spec hmem
      simp [handle_add_request, hprep] at hmem
    · intro arches har
      exact absurd har (by simp)
  | ok arches =>
    have hcount : ∀ tail : List OrchEffect,
        (handle_add_request conf request_id binary_image_arches
            from_index_arches add_arches trace).countP
          (fun e => e.isPushManifestList)
        = ((sortSet arches).map (fun arch =>
              OrchEffect.dispatchBuild arch ("iib_" ++ arch))).countP
            (fun e => e.isPushManifestList)
          + (match poll_request trace arches with
             | some true =>
               [OrchEffect.setState "in_progress"
                  "Creating the manifest list",
                OrchEffect.pushManifestList (outputPullSpec conf request_id),
                OrchEffect.recordIndexImage
                  (outputPullSpec conf request_id)].countP
                 (fun e => e.isPushManifestList)
             | _ => 0) := by
      intro _
      cases hpoll : poll_request trace arches with
      | none =>
        simp [handle_add_request, hprep, hpoll, List.countP_append,
          List.countP_cons, OrchEffect.isPushManifestList]
      | some b =>
        cases b <;>
          simp [handle_add_request, hprep, hpoll, List.countP_append,
            List.countP_cons, OrchEffect.isPushManifestList]
    refine ⟨?_, ?_, ?_⟩
    · rw [hcount []]
      rw [countP_dispatch_zero]
      cases hpoll : poll_request trace arches with
      | none => simp
      | some b =>
        cases b <;>
          simp [List.countP_cons, OrchEffect.isPushManifestList]
    · intro spec hmem
      cases hpoll : poll_request trace arches with
      | none =>
        simp [handle_add_request, hprep, hpoll,
          OrchEffect.isPushManifestList] at hmem
      | some b =>
        cases b with
        | false =>
          simp [handle_add_request, hprep, hpoll,
            OrchEffect.isPushManifestList] at hmem
        | true =>
          refine ⟨arches, rfl, ?_⟩
          exact poll_true_covered trace arches hmono hpoll
    · intro arches' har hpoll spec hmem
      have harr : arches = arches' := by
        cases har
        rfl
      subst harr
      simp [handle_add_request, hprep, hpoll,
        OrchEffect.isPushManifestList] at hmem

/-- Claim C5 counterexample: the error text logged by `_run_cmd` includes the
command's stderr verbatim, so the configured password appears unredacted in
the logged error text when stderr contains it; moreover an argument that
merely contains the credentials as a substring is not redacted. -/
theorem run_cmd_logs_password_counterexample :
    passwordPart exampleConf.iib_registry_credentials = "hunter2" ∧
    (∃ pre post,
      loggedErrorText exampleConf ["manifest-tool", "push"]
          "unauthorized: incorrect password hunter2 for user iib"
        = pre ++ "hunter2" ++ post) ∧
    sanitized_cmd exampleConf ["podman", "push", "--creds=iib:hunter2"]
      = ["podman", "push", "--creds=iib:hunter2"] := by
  refine ⟨by decide,
    ⟨"The command \"manifest-tool push\" failed with: "
        ++ "unauthorized: incorrect password ",
      " for user iib", ?_⟩, by decide⟩
  decide

/-- Claim C5 amended: on failure, `_run_cmd` replaces exactly the arguments that
are equal (as whole strings) to the configured credentials or to their
password part with `'********'`, leaves every other argument intact, and
appends the stderr text verbatim (unredacted) to the logged error text. -/
theorem run_cmd_redaction_amended (conf : WorkerConfig) (cmd : List String)
    (stderr : String)
    (h1 : conf.iib_registry_credentials ≠ "********")
    (h2 : passwordPart conf.iib_registry_credentials ≠ "********") :
    conf.iib_registry_credentials ∉ sanitized_cmd conf cmd ∧
    passwordPart conf.iib_registry_credentials ∉ sanitized_cmd conf cmd ∧
    (∀ arg ∈ cmd, arg ≠ conf.iib_registry_credentials →
      arg ≠ passwordPart conf.iib_registry_credentials →
      arg ∈ sanitized_cmd conf cmd) ∧
    (∃ pre, loggedErrorText conf cmd stderr = pre ++ stderr) := by
  refine ⟨?_, ?_, ?_,
    ⟨"The command \"" ++ String.intercalate " " (sanitized_cmd conf cmd)
      ++ "\" failed with: ", rfl⟩⟩
  · intro hmem
    rcases List.mem_map.mp hmem with ⟨arg, _, heq⟩
    by_cases hc : arg = conf.iib_registry_credentials
        ∨ arg = passwordPart conf.iib_registry_credentials
    · rw [if_pos hc] at heq
      exact h1 heq.symm
    · rw [if_neg hc] at heq
      exact hc (Or.inl heq)
  · intro hmem
    rcases List.mem_map.mp hmem with ⟨arg, _, heq⟩
    by_cases hc : arg = conf.iib_registry_credentials
        ∨ arg = passwordPart conf.iib_registry_credentials
    · rw [if_pos hc] at heq
      exact h2 heq.symm
    · rw [if_neg hc] at heq
      exact hc (Or.inr heq)
  · intro arg hmem hne1 hne2
    refine List.mem_map.mpr ⟨arg, hmem, ?_⟩
    exact if_neg (by
      rintro (h | h)
      · exact hne1 h
      · exact hne2 h)

/-! ## Witnesses -/

/-- A concrete trace of request-record observations with an append-only
done-set, used to instantiate the polling theorems. -/
def exampleTrace : List RequestSnapshot :=
  [⟨"in_progress", {"amd64"}⟩, ⟨"in_progress", {"amd64", "s390x"}⟩]

/-- Witness for C1 at concrete inputs. -/
theorem handle_add_request_manifest_once_witness :
    exampleTrace.Pairwise (fun s t => s.arches ⊆ t.arches) ∧
    (handle_add_request exampleConf 3 {"amd64", "ppc64le", "s390x"} none
        (some ["amd64", "s390x"]) exampleTrace).countP
      (fun e => e.isPushManifestList) ≤ 1 :=
  ⟨by decide,
    (handle_add_request_manifest_once exampleConf 3
      {"amd64", "ppc64le", "s390x"} none (some ["amd64", "s390x"])
      exampleTrace (by decide)).1⟩

/-- Witness for C2 at concrete inputs. -/
theorem prepare_arch_support_witness :
    targetArches (some ["amd64", "s390x"]) none ≠ ∅ ∧
    prepare_request_for_build exampleConf {"amd64", "ppc64le", "s390x"} none
        (some ["amd64", "s390x"])
      = .ok {"amd64", "s390x"} := by
  refine ⟨by decide, ?_⟩
  have h := ((prepare_arch_support exampleConf {"amd64", "ppc64le", "s390x"}
    none (some ["amd64", "s390x"]) (by decide)).1).mpr ⟨by decide, by decide⟩
  rw [h]
  exact congrArg Except.ok (by decide)

/-- Witness for C4 at concrete inputs. -/
theorem opm_index_add_failed_guard_witness :
    ("failed" : String) = "failed" ∧
    opm_index_add exampleConf ["quay.io/ns/bundle:v1"] "binary@sha256:abc" 3
        none "failed"
      = [.setState "failed"
          "Not building for the arch amd64 since the request has already failed"] := by
  refine ⟨rfl, ?_⟩
  rw [(opm_index_add_failed_guard exampleConf ["quay.io/ns/bundle:v1"]
    "binary@sha256:abc" 3 none "failed" rfl).1]
  decide

/-- Witness for C5 (amended) at concrete inputs. -/
theorem run_cmd_redaction_amended_witness :
    exampleConf.iib_registry_credentials ≠ "********" ∧
    passwordPart exampleConf.iib_registry_credentials ≠ "********" ∧
    "iib:hunter2" ∉ sanitized_cmd exampleConf
      ["podman", "push", "--creds", "iib:hunter2"] := by
  refine ⟨by decide, by decide, ?_⟩
  exact (run_cmd_redaction_amended exampleConf
    ["podman", "push", "--creds", "iib:hunter2"] "err" (by decide)
    (by decide)).1

/-- Witness for C9 at concrete inputs: a request observed in state
`complete` still goes through the full sequence. -/
theorem opm_index_add_full_sequence_witness :
    ("complete" : String) ≠ "failed" ∧
    opm_index_add exampleConf ["quay.io/ns/bundle:v1"] "binary@sha256:abc" 3
        (some "quay.io/ns/index:latest") "complete"
      = [.cleanup,
         .runOpmGenerate ["opm", "index", "add", "--generate", "--bundles",
           "quay.io/ns/bundle:v1", "--binary-image", "binary@sha256:abc",
           "--from-index", "quay.io/ns/index:latest"],
         .fixOpmPath,
         .buildImage "operator-registry-index:3",
         .pushArchImage "docker://registry.example.com/iib-build:3-amd64",
         .reportArchDone "amd64"] := by
  refine ⟨by decide, ?_⟩
  rw [opm_index_add_full_sequence exampleConf ["quay.io/ns/bundle:v1"]
    "binary@sha256:abc" 3 (some "quay.io/ns/index:latest") "complete"
    (by decide)]
  decide

/-- Witness for C10 at concrete inputs. -/
theorem prepare_binary_check_first_witness :
    ¬ targetArches (some ["arm64"]) none ⊆ ({"amd64"} : Finset String) ∧
    ¬ targetArches (some ["arm64"]) none ⊆ exampleConf.iib_arches ∧
    ∃ msg, prepare_request_for_build exampleConf {"amd64"} none
        (some ["arm64"])
      = .error (.unsupportedBinaryArch msg) :=
  ⟨by decide, by decide,
    ⟨_, prepare_binary_check_first exampleConf {"amd64"} none
      (some ["arm64"]) (by decide) (by decide)⟩⟩

/-- Witness for C3 at concrete inputs: observing a `failed` state makes
polling return `False`. -/
theorem poll_request_behaviour_witness :
    ("failed" : String) ≠ "in_progress" ∧
    poll_request [RequestSnapshot.mk "failed" ∅] {"amd64"} = some false :=
  ⟨by decide,
    (poll_request_behaviour [] {"amd64"}).2.1 ⟨"failed", ∅⟩ [] (by decide)⟩

/-- Witness for C6 at concrete inputs: a v2 manifest list yields exactly
the architectures of its platform entries. -/
theorem get_image_arches_media_type_witness :
    (SkopeoRawManifest.mk manifestListMediaType
        [⟨⟨"amd64"⟩⟩, ⟨⟨"s390x"⟩⟩]).mediaType = manifestListMediaType ∧
    get_image_arches "quay.io/ns/index:latest"
        ⟨manifestListMediaType, [⟨⟨"amd64"⟩⟩, ⟨⟨"s390x"⟩⟩]⟩
      = .ok {"amd64", "s390x"} := by
  refine ⟨rfl, ?_⟩
  rw [(get_image_arches_media_type "quay.io/ns/index:latest"
    ⟨manifestListMediaType, [⟨⟨"amd64"⟩⟩, ⟨⟨"s390x"⟩⟩]⟩).2 rfl]
  exact congrArg Except.ok (by decide)

/-- Witness for C7 at concrete inputs: an empty target set produces the
no-arches error. -/
theorem prepare_target_arches_witness :
    targetArches none (some {"amd64"}) = ({"amd64"} : Finset String) ∧
    targetArches (some []) none = ∅ ∧
    prepare_request_for_build exampleConf {"amd64"} none (some [])
      = .error (.noArches
          "No arches were provided to build the index image") := by
  refine ⟨?_, by decide, ?_⟩
  · rw [(prepare_target_arches exampleConf {"amd64"} (some {"amd64"})
      none).1]
    decide
  · exact (prepare_target_arches exampleConf {"amd64"} none
      (some [])).2.2 (by decide)

end IIB
